import Mathlib

/-!
# FGO event calculator — shallow embedding and verification

This file embeds the domain layer of `app.js` (validation, rate model,
greedy run optimizer) into Lean 4 and proves the specification claims
about it.  JavaScript numbers are modelled by exact rationals `ℚ`;
`Math.round x` is modelled by `⌊x + 1/2⌋` (round half towards +∞);
the `while` loop of `calcOptimalRuns` is modelled by structural
recursion on the remaining iteration budget, which is faithful because
the loop guard bounds `iterations` by `MAX_ITERATIONS`.
-/

/-- The three material tiers, in their fixed order (the `TIERS` constant). -/
inductive Tier where
  | bronze
  | silver
  | gold
deriving DecidableEq, Repr

/-- The `TIERS` constant: fixed iteration order bronze, silver, gold. -/
def TIERS : List Tier := [Tier.bronze, Tier.silver, Tier.gold]

/-- Position of a tier in the fixed order (bronze = 0, silver = 1, gold = 2). -/
def tierIdx : Tier → ℕ
  | Tier.bronze => 0
  | Tier.silver => 1
  | Tier.gold => 2

/-- A per-tier vector of rationals (models objects `{bronze, silver, gold}`
holding JS numbers, e.g. deficits or remaining amounts). -/
structure TierVec where
  bronze : ℚ
  silver : ℚ
  gold : ℚ
deriving DecidableEq, Repr

/-- Field read `v[t]`. -/
def TierVec.get (v : TierVec) (t : Tier) : ℚ :=
  match t with
  | Tier.bronze => v.bronze
  | Tier.silver => v.silver
  | Tier.gold => v.gold

/-- The compound assignment `v[t] -= q`. -/
def TierVec.sub (v : TierVec) (t : Tier) (q : ℚ) : TierVec :=
  match t with
  | Tier.bronze => { v with bronze := v.bronze - q }
  | Tier.silver => { v with silver := v.silver - q }
  | Tier.gold => { v with gold := v.gold - q }

/-- Per-tier run counters (the `runs` object of `calcOptimalRuns`). -/
structure RunCounts where
  bronze : ℕ
  silver : ℕ
  gold : ℕ
deriving DecidableEq, Repr

/-- The increment `runs[t]++`. -/
def RunCounts.inc (r : RunCounts) (t : Tier) : RunCounts :=
  match t with
  | Tier.bronze => { r with bronze := r.bronze + 1 }
  | Tier.silver => { r with silver := r.silver + 1 }
  | Tier.gold => { r with gold := r.gold + 1 }

/-- One quest's entry in the drop-rate table:
`{primary: {tier, rate}, secondary: {tier, rate}}`. -/
structure QuestRate where
  primaryTier : Tier
  primaryRate : ℚ
  secondaryTier : Tier
  secondaryRate : ℚ
deriving DecidableEq, Repr

/-- The drop-rate table `dropRates`, one entry per quest type. -/
structure RateTable where
  bronze : QuestRate
  silver : QuestRate
  gold : QuestRate
deriving DecidableEq, Repr

/-- Table lookup `dropRates[t]`. -/
def RateTable.get (r : RateTable) (t : Tier) : QuestRate :=
  match t with
  | Tier.bronze => r.bronze
  | Tier.silver => r.silver
  | Tier.gold => r.gold

/-- The `MAX_ITERATIONS` constant (10000). -/
def MAX_ITERATIONS : ℕ := 10000

/-- The `EPSILON` convergence tolerance (0.01). -/
def EPSILON : ℚ := 1 / 100

/-- `Math.round` on exact rationals: round half towards +∞. -/
def jsRound (x : ℚ) : ℤ := ⌊x + 1 / 2⌋

/-- `Calculator.calcDropRate(base, bonus, multiplier)`:
`Math.round((base + bonus) * multiplier * 100) / 100`. -/
def calcDropRate (base bonus multiplier : ℚ) : ℚ :=
  (jsRound ((base + bonus) * multiplier * 100) : ℚ) / 100

/-- The drop-rate formula as worded by the spec: the raw product rounded to
2 decimal places with standard round-half-up on the scaled value
(Mathlib's `round`). Compared against `calcDropRate` for refinement. -/
def dropRateSpec (base bonus multiplier : ℚ) : ℚ :=
  ((round ((base + bonus) * multiplier * 100) : ℤ) : ℚ) / 100

/-- `Calculator.calcDeficits(needs, haves)`: per-tier `max(0, need - have)`. -/
def calcDeficits (needs haves : TierVec) : TierVec :=
  { bronze := max 0 (needs.bronze - haves.bronze)
    silver := max 0 (needs.silver - haves.silver)
    gold := max 0 (needs.gold - haves.gold) }

/-- The fixed `QUEST_DROPS` mapping, primary component: a quest's primary
drop is its own tier. -/
def questPrimary : Tier → Tier
  | Tier.bronze => Tier.bronze
  | Tier.silver => Tier.silver
  | Tier.gold => Tier.gold

/-- The fixed `QUEST_DROPS` mapping, secondary component: the cyclic
successor bronze → silver → gold → bronze. -/
def questSecondary : Tier → Tier
  | Tier.bronze => Tier.silver
  | Tier.silver => Tier.gold
  | Tier.gold => Tier.bronze

/-- The rate-table construction of `App.calculate` (lines 674–699):
multipliers are stored ×100 and divided by 100 before use, and each
quest entry is built from `QUEST_DROPS` with `calcDropRate`. -/
def buildDropRates (base : ℚ) (bonus : TierVec) (primaryMultiplier secondaryMultiplier : ℚ) :
    RateTable :=
  let primaryMult := primaryMultiplier / 100
  let secondaryMult := secondaryMultiplier / 100
  let mk := fun (qt : Tier) =>
    { primaryTier := questPrimary qt
      primaryRate := calcDropRate base (bonus.get (questPrimary qt)) primaryMult
      secondaryTier := questSecondary qt
      secondaryRate := calcDropRate base (bonus.get (questSecondary qt)) secondaryMult : QuestRate }
  { bronze := mk Tier.bronze, silver := mk Tier.silver, gold := mk Tier.gold }

/-- The loop-local environment of `calcOptimalRuns`: the (unmutated)
`deficits` argument, the private copy `remaining = {...deficits}`, the
`runs` accumulator and the `iterations` counter. -/
structure LoopState where
  deficits : TierVec
  remaining : TierVec
  runs : RunCounts
  iterations : ℕ
deriving DecidableEq, Repr

/-- `TIERS.some(t => remaining[t] > EPSILON)`. -/
def anyDeficit (remaining : TierVec) : Bool :=
  TIERS.any (fun t => decide (EPSILON < remaining.get t))

/-- The `while` guard:
`TIERS.some(t => remaining[t] > EPSILON) && iterations < MAX_ITERATIONS`. -/
def loopCond (s : LoopState) : Bool :=
  anyDeficit s.remaining && decide (s.iterations < MAX_ITERATIONS)

/-- `TIERS.reduce((a, b) => remaining[a] >= remaining[b] ? a : b)`:
left fold starting from the head, keeping the current candidate on ties. -/
def maxTier (remaining : TierVec) : Tier :=
  List.foldl (fun a b => if remaining.get a ≥ remaining.get b then a else b)
    Tier.bronze [Tier.silver, Tier.gold]

/-- One successful loop-body execution (the bindings `maxTier`, `quest`
of the source inlined): subtract the primary rate from the primary drop
tier, then the secondary rate from the secondary drop tier, record one
run of the target quest, and bump the iteration counter. -/
def stepState (rates : RateTable) (s : LoopState) : LoopState :=
  { deficits := s.deficits
    remaining :=
      (s.remaining.sub (rates.get (maxTier s.remaining)).primaryTier
          (rates.get (maxTier s.remaining)).primaryRate).sub
        (rates.get (maxTier s.remaining)).secondaryTier
        (rates.get (maxTier s.remaining)).secondaryRate
    runs := s.runs.inc (maxTier s.remaining)
    iterations := s.iterations + 1 }

/-- The `while` loop of `calcOptimalRuns`, by structural recursion on the
remaining iteration budget `fuel` (run with `fuel = MAX_ITERATIONS`; the
guard `iterations < MAX_ITERATIONS` keeps the budget sufficient).  Returns
the final environment and whether the early `return {runs, error}` fired. -/
def calcLoopAux (rates : RateTable) : ℕ → LoopState → LoopState × Bool
  | 0, s => (s, false)
  | fuel + 1, s =>
    if loopCond s then
      if (rates.get (maxTier s.remaining)).primaryRate +
          (rates.get (maxTier s.remaining)).secondaryRate ≤ 0 then
        ({ s with iterations := s.iterations + 1 }, true)
      else
        calcLoopAux rates fuel (stepState rates s)
    else (s, false)

/-- The environment at entry to the loop: `runs` all zero,
`remaining` a copy of `deficits`, `iterations = 0`. -/
def initState (deficits : TierVec) : LoopState :=
  { deficits := deficits, remaining := deficits, runs := ⟨0, 0, 0⟩, iterations := 0 }

/-- Terminal condition of the optimizer result: plain `{runs}`,
`{runs, error: "Drop rates too low"}`, or
`{runs, warning: "Calculation limit reached"}`. -/
inductive OutStatus where
  | ok
  | rateExhausted
  | iterLimit
deriving DecidableEq, Repr

/-- Result of `calcOptimalRuns`. -/
structure OptResult where
  runs : RunCounts
  status : OutStatus
deriving DecidableEq, Repr

/-- `Calculator.calcOptimalRuns(deficits, dropRates)`: run the loop, then
apply the post-loop check `iterations >= MAX_ITERATIONS` for the warning. -/
def calcOptimalRuns (deficits : TierVec) (rates : RateTable) : OptResult :=
  if (calcLoopAux rates MAX_ITERATIONS (initState deficits)).2 then
    { runs := (calcLoopAux rates MAX_ITERATIONS (initState deficits)).1.runs
      status := OutStatus.rateExhausted }
  else if MAX_ITERATIONS ≤ (calcLoopAux rates MAX_ITERATIONS (initState deficits)).1.iterations then
    { runs := (calcLoopAux rates MAX_ITERATIONS (initState deficits)).1.runs
      status := OutStatus.iterLimit }
  else
    { runs := (calcLoopAux rates MAX_ITERATIONS (initState deficits)).1.runs
      status := OutStatus.ok }

/-- Tier names as they appear in storage keys. -/
def tierName : Tier → String
  | Tier.bronze => "bronze"
  | Tier.silver => "silver"
  | Tier.gold => "gold"

/-- The `TIER_FIELDS` constant. -/
def TIER_FIELDS : List String := ["Need", "Have", "Bonus"]

/-- The `allowedKeys` list of `Validator.validateStorageData`:
`TIERS.flatMap(t => TIER_FIELDS.map(f => t + f))` plus the three
setting names. -/
def allowedKeys : List String :=
  (TIERS.flatMap fun t => TIER_FIELDS.map fun f => tierName t ++ f) ++
    ["baseDrop", "primaryMultiplier", "secondaryMultiplier"]

/-- A JS number as the sanitizer can store it: any `parseFloat` result
other than `NaN` — a finite number (modelled exactly as a rational) or
one of the two infinities.  The code's only filter is `!isNaN(num)`,
which lets `Infinity` and `-Infinity` through (e.g. the JSON payload
`1e999` parses to `Infinity` and `isNaN(Infinity)` is `false`). -/
inductive JSNum where
  | num (q : ℚ)
  | inf
  | negInf
deriving DecidableEq, Repr

/-- A JS value stored under a key, abstracted by the outcome of
`parseFloat` on it: `some n` when it parses to the (possibly
non-finite) number `n`, `none` when `parseFloat` yields `NaN`. -/
abbrev JSVal := Option JSNum

/-- The body of the sanitizer for one allow-listed key `k`:
`if (k in data) { const num = parseFloat(data[k]); if (!isNaN(num))
sanitized[k] = num; }` — the `!isNaN` test keeps every `some` outcome,
non-finite numbers included. -/
def keepKey (data : List (String × JSVal)) (k : String) : Option (String × JSNum) :=
  ((data.lookup k).join).map fun n => (k, n)

/-- The sanitizing loop of `Validator.validateStorageData`: walk the
allow-list and keep each present, non-`NaN`-parsing value. -/
def sanitizeRecord (data : List (String × JSVal)) : List (String × JSNum) :=
  allowedKeys.filterMap (keepKey data)

/-- The possible shapes of a parsed JSON payload, as distinguished by
`!data || typeof data !== "object" || Array.isArray(data)`:
a plain (non-array) object, an array, `null` (or another falsy value),
or a truthy non-object primitive. -/
inductive JSData where
  | obj (fields : List (String × JSVal))
  | array
  | nullish
  | primitive
deriving DecidableEq

/-- `Validator.validateStorageData(data)`: `null` unless the input is a
plain non-array object, otherwise the sanitized record. -/
def validateStorageData : JSData → Option (List (String × JSNum))
  | JSData.obj fields => some (sanitizeRecord fields)
  | JSData.array => none
  | JSData.nullish => none
  | JSData.primitive => none

/-- A deficit vector of 100.01 bronze: with `exRates` below the loop
takes exactly 10000 iterations and satisfies every deficit on the last
one. -/
def exDeficits : TierVec := ⟨10001 / 100, 0, 0⟩

/-- A rate table whose bronze quest yields 0.01 bronze (primary) and 0
silver (secondary) per run; the other quests are never selected against
`exDeficits`. -/
def exRates : RateTable :=
  { bronze := ⟨Tier.bronze, 1 / 100, Tier.silver, 0⟩
    silver := ⟨Tier.silver, 1, Tier.gold, 1⟩
    gold := ⟨Tier.gold, 1, Tier.bronze, 1⟩ }

/-! ## Helper lemmas about the loop -/

theorem calcLoopAux_iterations_le (rates : RateTable) (fuel : ℕ) (s : LoopState)
    (h : s.iterations ≤ MAX_ITERATIONS) :
    (calcLoopAux rates fuel s).1.iterations ≤ MAX_ITERATIONS := by
  induction fuel generalizing s with
  | zero => simpa [calcLoopAux] using h
  | succ fuel ih =>
    rw [calcLoopAux]
    by_cases hc : loopCond s = true
    · have hlt : s.iterations < MAX_ITERATIONS := by
        have := hc
        simp [loopCond] at this
        exact this.2
      rw [if_pos hc]
      by_cases hr : (rates.get (maxTier s.remaining)).primaryRate +
          (rates.get (maxTier s.remaining)).secondaryRate ≤ 0
      · rw [if_pos hr]
        simpa using hlt
      · rw [if_neg hr]
        exact ih (stepState rates s) (by simpa [stepState] using hlt)
    · rw [if_neg hc]
      simpa using h

theorem calcLoopAux_exit_deficits (rates : RateTable) (fuel : ℕ) (s : LoopState)
    (hinv : MAX_ITERATIONS ≤ s.iterations + fuel)
    (herr : (calcLoopAux rates fuel s).2 = false)
    (hit : (calcLoopAux rates fuel s).1.iterations < MAX_ITERATIONS) :
    anyDeficit (calcLoopAux rates fuel s).1.remaining = false := by
  induction fuel generalizing s with
  | zero =>
    simp [calcLoopAux] at hit
    omega
  | succ fuel ih =>
    rw [calcLoopAux] at herr hit ⊢
    by_cases hc : loopCond s = true
    · rw [if_pos hc] at herr hit ⊢
      by_cases hr : (rates.get (maxTier s.remaining)).primaryRate +
          (rates.get (maxTier s.remaining)).secondaryRate ≤ 0
      · rw [if_pos hr] at herr
        simp at herr
      · rw [if_neg hr] at herr hit ⊢
        exact ih (stepState rates s) (by simp [stepState]; omega) herr hit
    · rw [if_neg hc] at herr hit ⊢
      simp only [loopCond, Bool.and_eq_true, decide_eq_true_eq, not_and] at hc
      cases hd : anyDeficit s.remaining with
      | false => rfl
      | true =>
        simp at hit
        exact absurd hit (hc hd)

theorem exLoop_closed (fuel i : ℕ) (h : fuel + i = MAX_ITERATIONS) :
    calcLoopAux exRates fuel
        { deficits := exDeficits, remaining := ⟨(10001 - (i : ℚ)) / 100, 0, 0⟩,
          runs := ⟨i, 0, 0⟩, iterations := i } =
      ({ deficits := exDeficits, remaining := ⟨1 / 100, 0, 0⟩,
         runs := ⟨MAX_ITERATIONS, 0, 0⟩, iterations := MAX_ITERATIONS }, false) := by
  induction fuel generalizing i with
  | zero =>
    have hi : i = MAX_ITERATIONS := by omega
    subst hi
    rw [calcLoopAux]
    have : (10001 - ((MAX_ITERATIONS : ℕ) : ℚ)) / 100 = 1 / 100 := by
      rw [MAX_ITERATIONS]
      norm_num
    rw [this]
  | succ fuel ih =>
    have hi : i ≤ 9999 := by
      rw [MAX_ITERATIONS] at h
      omega
    have hiq : (i : ℚ) ≤ 9999 := by exact_mod_cast hi
    have hrem : EPSILON < (10001 - (i : ℚ)) / 100 := by
      rw [EPSILON, div_lt_div_iff₀ (by norm_num : (0 : ℚ) < 100) (by norm_num : (0 : ℚ) < 100)]
      linarith
    have hrem0 : (0 : ℚ) ≤ (10001 - (i : ℚ)) / 100 :=
      div_nonneg (by linarith) (by norm_num)
    have hcond : loopCond
        { deficits := exDeficits, remaining := ⟨(10001 - (i : ℚ)) / 100, 0, 0⟩,
          runs := ⟨i, 0, 0⟩, iterations := i } = true := by
      simp [loopCond, anyDeficit, TIERS, TierVec.get, MAX_ITERATIONS]
      exact ⟨Or.inl hrem, by omega⟩
    have hmax : maxTier ⟨(10001 - (i : ℚ)) / 100, 0, 0⟩ = Tier.bronze := by
      simp only [maxTier, List.foldl, TierVec.get]
      rw [if_pos hrem0, if_pos hrem0]
    rw [calcLoopAux, if_pos hcond]
    rw [if_neg (by rw [hmax]; norm_num [exRates, RateTable.get])]
    have hstep : stepState exRates
        { deficits := exDeficits, remaining := ⟨(10001 - (i : ℚ)) / 100, 0, 0⟩,
          runs := ⟨i, 0, 0⟩, iterations := i } =
        { deficits := exDeficits, remaining := ⟨(10001 - ((i + 1 : ℕ) : ℚ)) / 100, 0, 0⟩,
          runs := ⟨i + 1, 0, 0⟩, iterations := i + 1 } := by
      simp only [stepState, hmax]
      simp only [exRates, RateTable.get, TierVec.sub, RunCounts.inc]
      simp only [LoopState.mk.injEq, TierVec.mk.injEq, RunCounts.mk.injEq, and_true, true_and,
        sub_zero, eq_self_iff_true]
      push_cast
      ring
    rw [hstep]
    exact ih (i + 1) (by omega)

/-! ## Claim theorems -/

/-- **C1** (amended): the optimizer reports the iteration-limit warning
iff its loop exits without the rate-exhausted error with the iteration
counter having reached exactly 10000 — whether or not deficits remain
above the tolerance; and whenever the loop exits without error in fewer
than 10000 iterations, the result is `ok` and every remaining deficit is
at most the tolerance. -/
theorem calcOptimalRuns_iterLimit_characterization (d : TierVec) (rates : RateTable) :
    ((calcOptimalRuns d rates).status = OutStatus.iterLimit ↔
      (calcLoopAux rates MAX_ITERATIONS (initState d)).2 = false ∧
        (calcLoopAux rates MAX_ITERATIONS (initState d)).1.iterations = MAX_ITERATIONS) ∧
    ((calcLoopAux rates MAX_ITERATIONS (initState d)).2 = false →
      (calcLoopAux rates MAX_ITERATIONS (initState d)).1.iterations < MAX_ITERATIONS →
      (calcOptimalRuns d rates).status = OutStatus.ok ∧
        anyDeficit (calcLoopAux rates MAX_ITERATIONS (initState d)).1.remaining = false) := by
  have hle := calcLoopAux_iterations_le rates MAX_ITERATIONS (initState d) (by simp [initState])
  constructor
  · rw [calcOptimalRuns]
    by_cases he : (calcLoopAux rates MAX_ITERATIONS (initState d)).2 = true
    · rw [if_pos he]
      simp [he]
    · rw [if_neg he]
      have h2 : (calcLoopAux rates MAX_ITERATIONS (initState d)).2 = false := by
        simpa using he
      by_cases hm : MAX_ITERATIONS ≤ (calcLoopAux rates MAX_ITERATIONS (initState d)).1.iterations
      · rw [if_pos hm]
        simp [h2]
        omega
      · rw [if_neg hm]
        simp [h2]
        omega
  · intro herr hit
    have hd := calcLoopAux_exit_deficits rates MAX_ITERATIONS (initState d)
      (by simp [initState]) herr hit
    refine ⟨?_, hd⟩
    rw [calcOptimalRuns, if_neg (by simp [herr]), if_neg (by omega)]

set_option maxRecDepth 10000 in
theorem calcOptimalRuns_iterLimit_characterization_witness :
    (calcOptimalRuns ⟨100, 0, 0⟩ (buildDropRates 3 ⟨0, 0, 0⟩ 1500 225)).status = OutStatus.ok ∧
      anyDeficit (calcLoopAux (buildDropRates 3 ⟨0, 0, 0⟩ 1500 225) MAX_ITERATIONS
          (initState ⟨100, 0, 0⟩)).1.remaining = false :=
  (calcOptimalRuns_iterLimit_characterization ⟨100, 0, 0⟩ (buildDropRates 3 ⟨0, 0, 0⟩ 1500 225)).2
    (by with_unfolding_all decide) (by with_unfolding_all decide)

/-- **C1** counterexample to the claim as stated: with a bronze deficit
of 100.01 and a bronze-quest rate of exactly 0.01, the loop satisfies
every deficit on its 10000th iteration — the loop exits with all
remaining deficits at or below the tolerance — yet the optimizer still
reports the iteration-limit warning, because the post-loop check looks
only at the iteration counter. -/
theorem calcOptimalRuns_iterLimit_spec_counterexample :
    (calcLoopAux exRates MAX_ITERATIONS (initState exDeficits)).1.remaining.bronze ≤ EPSILON ∧
      (calcLoopAux exRates MAX_ITERATIONS (initState exDeficits)).1.remaining.silver ≤ EPSILON ∧
      (calcLoopAux exRates MAX_ITERATIONS (initState exDeficits)).1.remaining.gold ≤ EPSILON ∧
      (calcLoopAux exRates MAX_ITERATIONS (initState exDeficits)).2 = false ∧
      calcOptimalRuns exDeficits exRates =
        { runs := ⟨MAX_ITERATIONS, 0, 0⟩, status := OutStatus.iterLimit } := by
  have h0 : initState exDeficits =
      { deficits := exDeficits, remaining := ⟨(10001 - ((0 : ℕ) : ℚ)) / 100, 0, 0⟩,
        runs := ⟨0, 0, 0⟩, iterations := 0 } := by
    rw [initState, exDeficits]
    norm_num
  have hL := exLoop_closed MAX_ITERATIONS 0 (by omega)
  rw [calcOptimalRuns, h0, hL]
  norm_num [EPSILON]

set_option maxRecDepth 10000 in
/-- **C2**: for deficits `{bronze: 100, silver: 0, gold: 0}` and the rate
table built from `baseDrop = 3`, all bonuses 0, `primaryMultiplier =
1500`, `secondaryMultiplier = 225` (bronze-quest primary rate 45.0,
secondary rate 6.75), the optimizer returns 3 bronze runs, 0 silver, 0
gold, with no error and no warning. -/
theorem calcOptimalRuns_concrete_scenario :
    (buildDropRates 3 ⟨0, 0, 0⟩ 1500 225).bronze.primaryRate = 45 ∧
      (buildDropRates 3 ⟨0, 0, 0⟩ 1500 225).bronze.secondaryRate = 27 / 4 ∧
      calcOptimalRuns ⟨100, 0, 0⟩ (buildDropRates 3 ⟨0, 0, 0⟩ 1500 225) =
        { runs := ⟨3, 0, 0⟩, status := OutStatus.ok } := by
  with_unfolding_all decide

/-- **C3**: whenever the loop guard holds and the selected target tier's
quest has primary plus secondary rate at most 0, the loop stops right
there with the rate-exhausted error, leaving `runs` and `remaining`
exactly as accumulated by the previous iterations; and an errored loop
makes the optimizer report the rate-exhausted error with those runs. -/
theorem calcOptimalRuns_rateExhausted :
    (∀ (rates : RateTable) (fuel : ℕ) (s : LoopState), fuel ≠ 0 → loopCond s = true →
        (rates.get (maxTier s.remaining)).primaryRate +
            (rates.get (maxTier s.remaining)).secondaryRate ≤ 0 →
        calcLoopAux rates fuel s = ({ s with iterations := s.iterations + 1 }, true)) ∧
      ∀ (deficits : TierVec) (rates : RateTable),
        (calcLoopAux rates MAX_ITERATIONS (initState deficits)).2 = true →
        calcOptimalRuns deficits rates =
          { runs := (calcLoopAux rates MAX_ITERATIONS (initState deficits)).1.runs
            status := OutStatus.rateExhausted } := by
  constructor
  · intro rates fuel s hf hc hr
    obtain ⟨fuel, rfl⟩ := Nat.exists_eq_succ_of_ne_zero hf
    rw [calcLoopAux, if_pos hc, if_pos hr]
  · intro d rates herr
    rw [calcOptimalRuns, if_pos herr]

theorem calcOptimalRuns_rateExhausted_witness :
    calcLoopAux ⟨⟨Tier.bronze, 0, Tier.silver, 0⟩, ⟨Tier.silver, 0, Tier.gold, 0⟩,
        ⟨Tier.gold, 0, Tier.bronze, 0⟩⟩ MAX_ITERATIONS (initState ⟨100, 0, 0⟩) =
      ({ initState ⟨100, 0, 0⟩ with
          iterations := (initState ⟨100, 0, 0⟩).iterations + 1 }, true) :=
  calcOptimalRuns_rateExhausted.1 _ MAX_ITERATIONS (initState ⟨100, 0, 0⟩)
    (by decide) (by with_unfolding_all decide) (by with_unfolding_all decide)

/-- **C4**: the tier selected by the greedy reduction always carries the
maximum remaining value, and any tier strictly earlier in the fixed
order than the selected one has a strictly smaller remaining value — so
exact ties are always resolved to the earliest tier, a later tier
displacing the candidate only when it strictly exceeds it. -/
theorem maxTier_max_and_tiebreak (r : TierVec) :
    (∀ t, r.get t ≤ r.get (maxTier r)) ∧
      ∀ t, tierIdx t < tierIdx (maxTier r) → r.get t < r.get (maxTier r) := by
  have hm : maxTier r =
      if r.get Tier.bronze ≥ r.get Tier.silver then
        (if r.get Tier.bronze ≥ r.get Tier.gold then Tier.bronze else Tier.gold)
      else (if r.get Tier.silver ≥ r.get Tier.gold then Tier.silver else Tier.gold) := by
    simp only [maxTier, List.foldl]
    by_cases h1 : r.get Tier.bronze ≥ r.get Tier.silver <;> simp [h1]
  rw [hm]
  split_ifs with h1 h2 h3 <;>
    refine ⟨fun t => ?_, fun t ht => ?_⟩ <;>
      cases t <;> simp_all [TierVec.get, tierIdx] <;> linarith

theorem maxTier_max_and_tiebreak_witness :
    TierVec.get ⟨3, 5, 5⟩ Tier.bronze < TierVec.get ⟨3, 5, 5⟩ (maxTier ⟨3, 5, 5⟩) ∧
      TierVec.get ⟨3, 5, 5⟩ Tier.gold ≤ TierVec.get ⟨3, 5, 5⟩ (maxTier ⟨3, 5, 5⟩) :=
  ⟨(maxTier_max_and_tiebreak ⟨3, 5, 5⟩).2 Tier.bronze (by with_unfolding_all decide),
    (maxTier_max_and_tiebreak ⟨3, 5, 5⟩).1 Tier.gold⟩

/-- **C5**: if every tier's deficit is at most the tolerance, the loop
guard fails immediately: the optimizer performs zero iterations and
returns all-zero run counts with no error and no warning, for any rate
table; and when `need ≤ have` per tier, `calcDeficits` makes every
deficit 0. -/
theorem calcOptimalRuns_zero_deficits :
    (∀ (d : TierVec) (rates : RateTable), (∀ t, d.get t ≤ EPSILON) →
        calcOptimalRuns d rates = { runs := ⟨0, 0, 0⟩, status := OutStatus.ok } ∧
          (calcLoopAux rates MAX_ITERATIONS (initState d)).1.iterations = 0) ∧
      ∀ needs haves : TierVec, (∀ t, needs.get t ≤ haves.get t) →
        ∀ t, (calcDeficits needs haves).get t = 0 := by
  constructor
  · intro d rates h
    have hany : anyDeficit d = false := by
      have hb := h Tier.bronze
      have hs := h Tier.silver
      have hg := h Tier.gold
      simp only [TierVec.get] at hb hs hg
      simp [anyDeficit, TIERS, TierVec.get]
      exact ⟨hb, hs, hg⟩
    have hcond : ¬ loopCond (initState d) = true := by
      simp [loopCond, initState, hany]
    have hloop : calcLoopAux rates MAX_ITERATIONS (initState d) = (initState d, false) := by
      rw [show MAX_ITERATIONS = 9999 + 1 from rfl, calcLoopAux, if_neg hcond]
    rw [calcOptimalRuns, hloop]
    refine ⟨?_, rfl⟩
    norm_num [initState, MAX_ITERATIONS]
  · intro needs haves h t
    have := h t
    cases t <;> simp_all [calcDeficits, TierVec.get]

theorem calcOptimalRuns_zero_deficits_witness :
    calcOptimalRuns ⟨0, 0, 0⟩ (buildDropRates 3 ⟨0, 0, 0⟩ 1500 225) =
      { runs := ⟨0, 0, 0⟩, status := OutStatus.ok } :=
  (calcOptimalRuns_zero_deficits.1 ⟨0, 0, 0⟩ (buildDropRates 3 ⟨0, 0, 0⟩ 1500 225)
    (fun t => by cases t <;> with_unfolding_all decide)).1

/-- **C6**: the optimizer terminates on every input, its loop body
executing at most 10000 times — the final value of the iteration
counter never exceeds `MAX_ITERATIONS`, and each loop-body execution
increments the counter by exactly 1. -/
theorem calcOptimalRuns_iterations_bounded :
    (∀ (d : TierVec) (rates : RateTable),
        (calcLoopAux rates MAX_ITERATIONS (initState d)).1.iterations ≤ MAX_ITERATIONS) ∧
      ∀ (rates : RateTable) (s : LoopState), (stepState rates s).iterations = s.iterations + 1 :=
  ⟨fun d rates => calcLoopAux_iterations_le rates MAX_ITERATIONS (initState d)
      (by simp [initState]),
    fun _ _ => rfl⟩

/-- **C7**: `calcDropRate` computes `round((base + bonus) * multiplier *
100) / 100` with round-half-up on the scaled value (agreeing with the
spec's formula stated via Mathlib's `round`), and in particular
`calcDropRate 3 0 15 = 45` and `calcDropRate 3 0 2.25 = 6.75`. -/
theorem calcDropRate_round_half_up :
    (∀ base bonus multiplier : ℚ,
        calcDropRate base bonus multiplier = dropRateSpec base bonus multiplier) ∧
      calcDropRate 3 0 15 = 45 ∧ calcDropRate 3 0 (9 / 4) = 27 / 4 := by
  refine ⟨fun b v m => ?_, ?_, ?_⟩
  · rw [calcDropRate, dropRateSpec, jsRound, round_eq]
  · norm_num [calcDropRate, jsRound]
  · norm_num [calcDropRate, jsRound]

/-- **C8** (amended): bulk sanitization keeps exactly the allow-listed
keys (the nine tier-field keys plus the three setting names) that are
present with a value parsing to any number other than `NaN` — the
non-finite `Infinity` and `-Infinity` included, since the code checks
only `!isNaN` — binding each kept key to its parsed value unchanged (no
range clamping); unknown keys and `NaN`-parsing values are dropped
without error. -/
theorem validateStorageData_allowlist :
    allowedKeys = ["bronzeNeed", "bronzeHave", "bronzeBonus", "silverNeed", "silverHave",
        "silverBonus", "goldNeed", "goldHave", "goldBonus", "baseDrop", "primaryMultiplier",
        "secondaryMultiplier"] ∧
      ∀ (data : List (String × JSVal)) (k : String) (n : JSNum),
        ((k, n) ∈ sanitizeRecord data ↔ k ∈ allowedKeys ∧ data.lookup k = some (some n)) := by
  refine ⟨by decide, fun data k n => ?_⟩
  rw [sanitizeRecord, List.mem_filterMap]
  constructor
  · rintro ⟨a, ha, hk⟩
    rw [keepKey, Option.map_eq_some'] at hk
    obtain ⟨y, hy, hpair⟩ := hk
    rw [Option.join_eq_some] at hy
    simp only [Prod.mk.injEq] at hpair
    obtain ⟨rfl, rfl⟩ := hpair
    exact ⟨ha, hy⟩
  · rintro ⟨hk, hl⟩
    refine ⟨k, hk, ?_⟩
    rw [keepKey, hl]
    rfl

theorem validateStorageData_allowlist_witness :
    ("baseDrop", JSNum.num 7) ∈
      sanitizeRecord [("junkKey", some (JSNum.num 3)), ("baseDrop", some (JSNum.num 7)),
        ("silverNeed", none)] :=
  (validateStorageData_allowlist.2 [("junkKey", some (JSNum.num 3)),
      ("baseDrop", some (JSNum.num 7)), ("silverNeed", none)] ("baseDrop")
      (JSNum.num 7)).mpr ⟨by decide, by rfl⟩

/-- **C8** counterexample to the claim as stated: a record whose
`baseDrop` value parses to `Infinity` (e.g. the JSON payload
`{"baseDrop": 1e999}`) is not dropped — the sanitizer keeps the
non-finite value, because the code tests only `!isNaN(num)`, never
finiteness.  So the sanitized record does not contain exactly the keys
whose values parse as finite numbers. -/
theorem validateStorageData_infinity_kept_counterexample :
    validateStorageData (JSData.obj [("baseDrop", some JSNum.inf)]) =
      some [("baseDrop", JSNum.inf)] := by decide

/-- **C9**: the optimizer never writes to its `deficits` argument — the
loop state returned by any number of loop steps carries the `deficits`
object unchanged (the simulation mutates only the private copy
`remaining`, the `runs` counters and `iterations`), so the whole
computation is a pure function of its inputs. -/
theorem calcOptimalRuns_preserves_inputs :
    (∀ (rates : RateTable) (fuel : ℕ) (s : LoopState),
        (calcLoopAux rates fuel s).1.deficits = s.deficits) ∧
      ∀ (d : TierVec) (rates : RateTable),
        (calcLoopAux rates MAX_ITERATIONS (initState d)).1.deficits = d := by
  have key : ∀ (rates : RateTable) (fuel : ℕ) (s : LoopState),
      (calcLoopAux rates fuel s).1.deficits = s.deficits := by
    intro rates fuel
    induction fuel with
    | zero => intro s; rfl
    | succ fuel ih =>
      intro s
      rw [calcLoopAux]
      by_cases hc : loopCond s = true
      · rw [if_pos hc]
        by_cases hr : (rates.get (maxTier s.remaining)).primaryRate +
            (rates.get (maxTier s.remaining)).secondaryRate ≤ 0
        · rw [if_pos hr]
        · rw [if_neg hr, ih (stepState rates s)]
          rfl
      · rw [if_neg hc]
  exact ⟨key, fun d rates => by rw [key]; rfl⟩

/-- **C10**: bulk sanitization returns `null` whenever its input is not
a plain object — in particular for arrays, `null`-like falsy values and
non-object primitives — rather than a sanitized record. -/
theorem validateStorageData_non_object_null (d : JSData)
    (h : ∀ fields, d ≠ JSData.obj fields) :
    validateStorageData d = none := by
  cases d with
  | obj fields => exact absurd rfl (h fields)
  | array => rfl
  | nullish => rfl
  | primitive => rfl

theorem validateStorageData_non_object_null_witness :
    validateStorageData JSData.array = none :=
  validateStorageData_non_object_null JSData.array (fun _ h => JSData.noConfusion h)
